import Mathlib

/-!
Verification of the store/document lifecycle manager and RAG chat orchestrator
(`app.py`, Streamlit frontend; `backend/main.py`, FastAPI backend).

The Python code is shallowly embedded: remote calls become explicit outcome
parameters (`PyResult`), Python truthiness on optional strings becomes
`strTruthy`, wall-clock reads become an explicit stream of sampled times, and
the Streamlit progress side channel becomes an explicit event trace.
-/

set_option maxRecDepth 8000

/-- Python truthiness of an optional string: `None` and `""` are falsy. -/
def strTruthy : Option String → Bool
  | none => false
  | some s => !(s == "")

/-- Outcome of a Python call that may raise: either a value or an exception
message caught by a surrounding `except` block. -/
inductive PyResult (α : Type) where
  | ok (a : α)
  | exc (msg : String)
deriving DecidableEq

/-- Python `min` on rationals: returns the first argument on ties. -/
def pymin (a b : ℚ) : ℚ := if a ≤ b then a else b

/-! ## Polling loop: `wait_for_operation` (app.py lines 94-131) -/

/-- One observed status of the long-running ingestion operation: the `done`
flag and the optional error (its message, `none` when absent or falsy). -/
structure OpState where
  done : Bool
  error : Option String

/-- Events emitted on the progress side channel while polling: fractional
progress reports (`st.progress`) and fixed sleeps (`time.sleep`). -/
inductive PollEvent where
  | progress (p : ℚ)
  | sleep (s : ℚ)
deriving DecidableEq

/-- The three exit paths of `wait_for_operation`: the timed-out `return False`,
the `return False` after a terminal operation error, and the `return True`. -/
inductive PollResult where
  | timeout
  | ingestFailed (msg : String)
  | success
deriving DecidableEq

/-- Body of `wait_for_operation`.  `clock n` is the value of the `n`-th call to
`time.time()` (call `0` computed the deadline); `getOp i` is the operation
status after `i` re-fetches (`getOp 0` is the handle passed in); `fuel` bounds
the number of loop iterations so the recursion is structural; `t` is the index
of the next `time.time()` call and `i` the number of re-fetches so far.
Returns the emitted event trace and the result (`none` iff fuel ran out). -/
def wait_aux (clock : Nat → ℚ) (getOp : Nat → OpState) (timeout_seconds : ℚ)
    (deadline : ℚ) : Nat → Nat → Nat → List PollEvent × Option PollResult
  | 0, _, _ => ([], none)
  | fuel + 1, t, i =>
    if (getOp i).done then
      match (getOp i).error with
      | some msg => ([PollEvent.progress 1], some (PollResult.ingestFailed msg))
      | none => ([PollEvent.progress 1], some PollResult.success)
    else if deadline ≤ clock t then
      ([], some PollResult.timeout)
    else
      let elapsed := clock (t + 1) - (deadline - timeout_seconds)
      let p := pymin (elapsed / timeout_seconds) (99 / 100)
      let rest := wait_aux clock getOp timeout_seconds deadline fuel (t + 2) (i + 1)
      (PollEvent.progress p :: PollEvent.sleep 3 :: rest.1, rest.2)

/-- `wait_for_operation(client, operation, timeout_seconds)`: the deadline is
`time.time() + timeout_seconds` sampled on entry, then the polling loop runs. -/
def wait_for_operation (clock : Nat → ℚ) (getOp : Nat → OpState)
    (timeout_seconds : ℚ) (fuel : Nat) : List PollEvent × Option PollResult :=
  wait_aux clock getOp timeout_seconds (clock 0 + timeout_seconds) fuel 1 0

/-- Unfolding of one loop iteration of `wait_aux`. -/
theorem wait_aux_succ (clock : Nat → ℚ) (getOp : Nat → OpState) (D dl : ℚ)
    (n t i : Nat) :
    wait_aux clock getOp D dl (n + 1) t i =
      if (getOp i).done then
        match (getOp i).error with
        | some msg => ([PollEvent.progress 1], some (PollResult.ingestFailed msg))
        | none => ([PollEvent.progress 1], some PollResult.success)
      else if dl ≤ clock t then
        ([], some PollResult.timeout)
      else
        (PollEvent.progress (pymin ((clock (t + 1) - (dl - D)) / D) (99 / 100)) ::
            PollEvent.sleep 3 :: (wait_aux clock getOp D dl n (t + 2) (i + 1)).1,
          (wait_aux clock getOp D dl n (t + 2) (i + 1)).2) := rfl

theorem getLast?_cons_cons_of_some {α : Type} (a b : α) (l : List α) (x : α)
    (h : l.getLast? = some x) : (a :: b :: l).getLast? = some x := by
  rw [List.getLast?_cons_cons]
  cases l with
  | nil => simp at h
  | cons c l' => rw [List.getLast?_cons_cons]; exact h

/-- Behavior of the polling loop from any point on the index diagonal
`t = 2 * i + 1` that the loop actually follows (entry is `t = 1`, `i = 0`). -/
theorem wait_aux_behavior (clock : Nat → ℚ) (getOp : Nat → OpState) (D dl : ℚ) :
    ∀ fuel i : Nat,
      ((wait_aux clock getOp D dl fuel (2 * i + 1) i).2 = some PollResult.timeout →
        ∃ k, i ≤ k ∧ (getOp k).done = false ∧ dl ≤ clock (2 * k + 1)) ∧
      (∀ msg,
        (wait_aux clock getOp D dl fuel (2 * i + 1) i).2 = some (PollResult.ingestFailed msg) →
        ∃ k, i ≤ k ∧ (getOp k).done = true ∧ (getOp k).error = some msg) ∧
      ((wait_aux clock getOp D dl fuel (2 * i + 1) i).2 = some PollResult.success →
        ∃ k, i ≤ k ∧ (getOp k).done = true ∧ (getOp k).error = none) ∧
      (((wait_aux clock getOp D dl fuel (2 * i + 1) i).2 = some PollResult.success ∨
          (∃ msg, (wait_aux clock getOp D dl fuel (2 * i + 1) i).2 =
            some (PollResult.ingestFailed msg))) →
        (wait_aux clock getOp D dl fuel (2 * i + 1) i).1.getLast? =
          some (PollEvent.progress 1)) ∧
      (∀ ev ∈ (wait_aux clock getOp D dl fuel (2 * i + 1) i).1,
        ev = PollEvent.sleep 3 ∨ ev = PollEvent.progress 1 ∨
        ∃ k, i ≤ k ∧ (getOp k).done = false ∧ clock (2 * k + 1) < dl ∧
          ev = PollEvent.progress
            (pymin ((clock (2 * k + 2) - (dl - D)) / D) (99 / 100))) := by
  intro fuel
  induction fuel with
  | zero =>
    intro i
    refine ⟨?_, ?_, ?_, ?_, ?_⟩ <;> simp [wait_aux]
  | succ n ih =>
    intro i
    rw [wait_aux_succ]
    cases hd : (getOp i).done with
    | true =>
      cases herr : (getOp i).error with
      | some msg =>
        simp only [hd, if_true]
        refine ⟨by simp, ?_, by simp, ?_, ?_⟩
        · intro m hm
          simp only [Option.some.injEq, PollResult.ingestFailed.injEq] at hm
          exact ⟨i, le_refl i, hd, hm ▸ herr⟩
        · intro _ ; rfl
        · intro ev hev
          simp only [List.mem_singleton] at hev
          exact Or.inr (Or.inl hev)
      | none =>
        simp only [hd, if_true]
        refine ⟨by simp, by simp, ?_, ?_, ?_⟩
        · intro _
          exact ⟨i, le_refl i, hd, herr⟩
        · intro _ ; rfl
        · intro ev hev
          simp only [List.mem_singleton] at hev
          exact Or.inr (Or.inl hev)
    | false =>
      by_cases ht : dl ≤ clock (2 * i + 1)
      · simp only [hd, Bool.false_eq_true, if_false, if_pos ht]
        refine ⟨?_, by simp, by simp, by simp, by simp⟩
        intro _
        exact ⟨i, le_refl i, hd, ht⟩
      · simp only [hd, Bool.false_eq_true, if_false, if_neg ht]
        have harg : 2 * i + 1 + 2 = 2 * (i + 1) + 1 := by ring
        rw [harg]
        obtain ⟨ihT, ihF, ihS, ihL, ihE⟩ := ih (i + 1)
        refine ⟨?_, ?_, ?_, ?_, ?_⟩
        · intro h
          obtain ⟨k, hk, h1, h2⟩ := ihT h
          exact ⟨k, le_trans (Nat.le_succ i) hk, h1, h2⟩
        · intro msg h
          obtain ⟨k, hk, h1, h2⟩ := ihF msg h
          exact ⟨k, le_trans (Nat.le_succ i) hk, h1, h2⟩
        · intro h
          obtain ⟨k, hk, h1, h2⟩ := ihS h
          exact ⟨k, le_trans (Nat.le_succ i) hk, h1, h2⟩
        · intro h
          exact getLast?_cons_cons_of_some _ _ _ _ (ihL h)
        · intro ev hev
          rcases List.mem_cons.mp hev with hev | hev
          · refine Or.inr (Or.inr ⟨i, le_refl i, hd, lt_of_not_le ht, ?_⟩)
            rw [hev]
          · rcases List.mem_cons.mp hev with hev | hev
            · exact Or.inl hev
            · rcases ihE ev hev with h | h | ⟨k, hk, h1, h2, h3⟩
              · exact Or.inl h
              · exact Or.inr (Or.inl h)
              · exact Or.inr (Or.inr ⟨k, le_trans (Nat.le_succ i) hk, h1, h2, h3⟩)

/-- C1: given an operation handle and a deadline `clock 0 + D` computed `D`
seconds from submission, the polling loop fails with `Timeout` only when a
sampled time has reached or passed the deadline while the operation was not yet
done (so never before the deadline); every event emitted while the operation
was not done is either the fractional progress report `min(elapsed / D, 0.99)`
or the fixed 3-second sleep between status re-fetches; when the operation
reports done with an error the loop fails with `IngestFailed` carrying the
error message, and when done without error it succeeds — in both terminal
cases with the last reported progress equal to 1. -/
theorem wait_for_operation_spec (clock : Nat → ℚ) (getOp : Nat → OpState)
    (D : ℚ) (fuel : Nat) :
    ((wait_for_operation clock getOp D fuel).2 = some PollResult.timeout →
      ∃ k, (getOp k).done = false ∧ clock 0 + D ≤ clock (2 * k + 1)) ∧
    (∀ msg,
      (wait_for_operation clock getOp D fuel).2 = some (PollResult.ingestFailed msg) →
      (∃ k, (getOp k).done = true ∧ (getOp k).error = some msg) ∧
      (wait_for_operation clock getOp D fuel).1.getLast? = some (PollEvent.progress 1)) ∧
    ((wait_for_operation clock getOp D fuel).2 = some PollResult.success →
      (∃ k, (getOp k).done = true ∧ (getOp k).error = none) ∧
      (wait_for_operation clock getOp D fuel).1.getLast? = some (PollEvent.progress 1)) ∧
    (∀ ev ∈ (wait_for_operation clock getOp D fuel).1,
      ev = PollEvent.sleep 3 ∨ ev = PollEvent.progress 1 ∨
      ∃ k, (getOp k).done = false ∧ clock (2 * k + 1) < clock 0 + D ∧
        ev = PollEvent.progress (pymin ((clock (2 * k + 2) - clock 0) / D) (99 / 100))) := by
  obtain ⟨hT, hF, hS, hL, hE⟩ := wait_aux_behavior clock getOp D (clock 0 + D) fuel 0
  have hdl : clock 0 + D - D = clock 0 := add_sub_cancel_right (clock 0) D
  refine ⟨?_, ?_, ?_, ?_⟩
  · intro h
    obtain ⟨k, _, h1, h2⟩ := hT h
    exact ⟨k, h1, h2⟩
  · intro msg h
    obtain ⟨k, _, h1, h2⟩ := hF msg h
    exact ⟨⟨k, h1, h2⟩, hL (Or.inr ⟨msg, h⟩)⟩
  · intro h
    obtain ⟨k, _, h1, h2⟩ := hS h
    exact ⟨⟨k, h1, h2⟩, hL (Or.inl h)⟩
  · intro ev hev
    rcases hE ev hev with h | h | ⟨k, _, h1, h2, h3⟩
    · exact Or.inl h
    · exact Or.inr (Or.inl h)
    · refine Or.inr (Or.inr ⟨k, h1, h2, ?_⟩)
      rw [h3, hdl]

/-- Sampled clock used by the C1 witness scenarios: `0` on entry, `5` on every
later sample. -/
def c1Clock : Nat → ℚ := fun n => if n = 0 then 0 else 5

/-- C1 witness operation stream: never completes. -/
def c1OpsNever : Nat → OpState := fun _ => { done := false, error := none }

/-- C1 witness operation stream: already completed with an error. -/
def c1OpsFailed : Nat → OpState := fun _ => { done := true, error := some "boom" }

/-- C1 witness operation stream: not done for two fetches, then done cleanly. -/
def c1OpsLate : Nat → OpState :=
  fun i => if i < 2 then { done := false, error := none } else { done := true, error := none }

/-- C1 witness: the spec theorem applied to three concrete runs — a deadline of
5 seconds with an operation that never completes (timed out at a sample that
reached the deadline), an operation that is done with error message `boom`, and
an operation that reports done with no error after two fetches (terminal
progress 1). -/
theorem wait_for_operation_spec_witness :
    (∃ k, (c1OpsNever k).done = false ∧ c1Clock 0 + 5 ≤ c1Clock (2 * k + 1)) ∧
    ((∃ k, (c1OpsFailed k).done = true ∧ (c1OpsFailed k).error = some "boom") ∧
      (wait_for_operation c1Clock c1OpsFailed 5 3).1.getLast? =
        some (PollEvent.progress 1)) ∧
    ((∃ k, (c1OpsLate k).done = true ∧ (c1OpsLate k).error = none) ∧
      (wait_for_operation c1Clock c1OpsLate 300 5).1.getLast? =
        some (PollEvent.progress 1)) := by
  have h0 : ∀ q : ℚ, c1Clock 0 + q = q := by
    intro q
    rw [show c1Clock 0 = (0 : ℚ) from rfl]
    exact zero_add q
  refine ⟨(wait_for_operation_spec c1Clock c1OpsNever 5 3).1 ?_,
      (wait_for_operation_spec c1Clock c1OpsFailed 5 3).2.1 "boom" ?_,
      (wait_for_operation_spec c1Clock c1OpsLate 300 5).2.2.1 ?_⟩
  · show (wait_aux c1Clock c1OpsNever 5 (c1Clock 0 + 5) 3 1 0).2 = some PollResult.timeout
    rw [h0 5]
    decide
  · decide
  · show (wait_aux c1Clock c1OpsLate 300 (c1Clock 0 + 300) 5 1 0).2 = some PollResult.success
    rw [h0 300]
    decide

/-! ## Citation extraction: `extract_citations` (app.py lines 341-363) -/

/-- `chunk.retrieved_context` fields read by the extractor; each may be absent
or `None` (modelled `none`) or an empty string (falsy in Python). -/
structure RetrievedContext where
  uri : Option String
  title : Option String
  text : Option String
deriving DecidableEq

/-- One grounding chunk; `retrieved_context` is `none` when the attribute is
missing or falsy. -/
structure GroundingChunk where
  retrieved_context : Option RetrievedContext
deriving DecidableEq

/-- The grounding metadata of a candidate; `grounding_chunks` may be `None`. -/
structure GroundingMetadata where
  grounding_chunks : Option (List GroundingChunk)
deriving DecidableEq

/-- One response candidate; `grounding_metadata` may be missing or `None`. -/
structure Candidate where
  grounding_metadata : Option GroundingMetadata
deriving DecidableEq

/-- A generation response; `candidates = none` models a missing or `None`
`candidates` attribute. -/
structure GenResponse where
  candidates : Option (List Candidate)
deriving DecidableEq

/-- Python slice `s[:n]`, taking the first `n` characters. -/
def pySlice (s : String) (n : Nat) : String := String.mk (s.data.take n)

/-- The reference string one chunk contributes in `extract_citations`: the
`uri` if truthy, else the `title` if truthy, else the first 80 characters of
`text` if truthy, else nothing (also nothing without a retrieved context). -/
def chunkRef (chunk : GroundingChunk) : Option String :=
  match chunk.retrieved_context with
  | none => none
  | some rc =>
    if strTruthy rc.uri then rc.uri
    else if strTruthy rc.title then rc.title
    else if strTruthy rc.text then some (pySlice (rc.text.getD "") 80)
    else none

/-- `extract_citations(response)`: walk the first candidate's grounding chunks
and collect each chunk's reference; any missing piece (no candidates, empty
candidate list — an `IndexError` caught by the bare `except` — no grounding
metadata, no chunks) yields the empty list. -/
def extract_citations (response : GenResponse) : List String :=
  match response.candidates with
  | none => []
  | some [] => []
  | some (candidate :: _) =>
    match candidate.grounding_metadata with
    | none => []
    | some gm =>
      match gm.grounding_chunks with
      | none => []
      | some chunks => chunks.filterMap chunkRef

/-- A response whose single candidate grounds on the given chunk list (the
well-formed case of the remote generation response). -/
def mkResponse (chunks : List GroundingChunk) : GenResponse :=
  ⟨some [⟨some ⟨some chunks⟩⟩]⟩

/-- A grounding chunk carrying only the given retrieved-context fields. -/
def mkChunk (uri title text : Option String) : GroundingChunk :=
  ⟨some ⟨uri, title, text⟩⟩

/-- A response whose candidate grounds on the same URI twice. -/
def c3DupResponse : GenResponse :=
  mkResponse [mkChunk (some "A") none none, mkChunk (some "A") none none]

/-- C3 counterexample: a response with two grounding chunks carrying the same
URI yields the citation list `["A", "A"]`, which contains a duplicate — the
extractor does not deduplicate. -/
theorem extract_citations_not_dedup :
    extract_citations c3DupResponse = ["A", "A"] ∧
    ¬ (extract_citations c3DupResponse).Nodup := by
  exact ⟨by decide, by decide⟩

/-- C3 (amended): the extractor emits one reference per contributing chunk in
response order and never removes duplicates: it is additive over the chunk
list, and two chunks with the same URI contribute that URI twice. -/
theorem extract_citations_per_chunk :
    (∀ l₁ l₂ : List GroundingChunk,
      extract_citations (mkResponse (l₁ ++ l₂)) =
        extract_citations (mkResponse l₁) ++ extract_citations (mkResponse l₂)) ∧
    extract_citations c3DupResponse = ["A", "A"] := by
  refine ⟨fun l₁ l₂ => ?_, by decide⟩
  show (l₁ ++ l₂).filterMap chunkRef = _
  exact List.filterMap_append l₁ l₂ chunkRef

/-- A 100-character text `"C" * 100`, for the C4 example. -/
def c4Text100 : String := String.mk (List.replicate 100 'C')

/-- C4: the extractor walks the first candidate's grounding chunks in response
order, each chunk contributing at most one reference by strict precedence —
truthy URI first, else truthy title, else the first 80 characters of a truthy
retrieved text — and chunks with none of the three (or no retrieved context)
contribute nothing; on chunks `uri = "A"`, `title = "B"`,
`text = "C" * 100` it returns `["A", "B", "C" * 80]` in that order. -/
theorem extract_citations_precedence :
    (∀ chunks : List GroundingChunk,
      extract_citations (mkResponse chunks) = chunks.filterMap chunkRef) ∧
    (∀ u t x : Option String, strTruthy u = true →
      chunkRef (mkChunk u t x) = u) ∧
    (∀ u t x : Option String, strTruthy u = false → strTruthy t = true →
      chunkRef (mkChunk u t x) = t) ∧
    (∀ u t x : Option String, strTruthy u = false → strTruthy t = false →
      strTruthy x = true →
      chunkRef (mkChunk u t x) = some (pySlice (x.getD "") 80)) ∧
    (∀ u t x : Option String, strTruthy u = false → strTruthy t = false →
      strTruthy x = false → chunkRef (mkChunk u t x) = none) ∧
    chunkRef ⟨none⟩ = none ∧
    extract_citations (mkResponse
        [mkChunk (some "A") none none, mkChunk none (some "B") none,
          mkChunk none none (some c4Text100)]) =
      ["A", "B", String.mk (List.replicate 80 'C')] := by
  refine ⟨fun chunks => rfl, ?_, ?_, ?_, ?_, rfl, by decide⟩
  · intro u t x hu
    simp [chunkRef, mkChunk, hu]
  · intro u t x hu ht
    simp [chunkRef, mkChunk, hu, ht]
  · intro u t x hu ht hx
    simp [chunkRef, mkChunk, hu, ht, hx]
  · intro u t x hu ht hx
    simp [chunkRef, mkChunk, hu, ht, hx]

/-- C4 witness: the precedence theorem applied to a chunk that has all three
fields — the URI wins. -/
theorem extract_citations_precedence_witness :
    strTruthy (some "A") = true ∧
    chunkRef (mkChunk (some "A") (some "B") (some "C")) = some "A" :=
  ⟨by decide,
    extract_citations_precedence.2.1 (some "A") (some "B") (some "C") (by decide)⟩

/-- C5: a response with absent or malformed grounding metadata — no
`candidates`, an empty candidate list (the `IndexError` caught by the bare
`except`), no `grounding_metadata` on the first candidate, or no
`grounding_chunks` — yields the empty citation list; `extract_citations` is a
total function, so no error reaches the caller. -/
theorem extract_citations_malformed (r : GenResponse) :
    (r.candidates = none → extract_citations r = []) ∧
    (r.candidates = some [] → extract_citations r = []) ∧
    (∀ c cs, r.candidates = some (c :: cs) → c.grounding_metadata = none →
      extract_citations r = []) ∧
    (∀ c cs gm, r.candidates = some (c :: cs) → c.grounding_metadata = some gm →
      gm.grounding_chunks = none → extract_citations r = []) := by
  refine ⟨?_, ?_, ?_, ?_⟩
  · intro h
    simp [extract_citations, h]
  · intro h
    simp [extract_citations, h]
  · intro c cs h hg
    simp [extract_citations, h, hg]
  · intro c cs gm h hg hc
    simp [extract_citations, h, hg, hc]

/-- C5 witness: the malformed-response theorem applied to the response with no
candidates. -/
theorem extract_citations_malformed_witness :
    (GenResponse.mk none).candidates = none ∧ extract_citations ⟨none⟩ = [] :=
  ⟨rfl, (extract_citations_malformed ⟨none⟩).1 rfl⟩

/-! ## Document inventory filtering and sorting (app.py lines 555-595, 674-714) -/

/-- Lexicographic strict comparison of character lists by code point, the
order Python uses on `str`. -/
def charListLt : List Char → List Char → Bool
  | [], [] => false
  | [], _ :: _ => true
  | _ :: _, [] => false
  | c :: cs, d :: ds =>
    decide (c.toNat < d.toNat) || (decide (c.toNat = d.toNat) && charListLt cs ds)

/-- Python `<` on strings: code-point lexicographic, case-sensitive. -/
def pyStrLt (a b : String) : Bool := charListLt a.data b.data

/-- Python `str.lower()` (ASCII case folding suffices for the embedded data). -/
def pyLower (s : String) : String := String.mk (s.data.map Char.toLower)

/-- Whether `needle` starts `hay` (character lists). -/
def startsWithChars : List Char → List Char → Bool
  | [], _ => true
  | _ :: _, [] => false
  | c :: cs, d :: ds => c == d && startsWithChars cs ds

/-- Whether `needle` occurs in `hay` (character lists). -/
def containsChars (needle : List Char) : List Char → Bool
  | [] => startsWithChars needle []
  | d :: ds => startsWithChars needle (d :: ds) || containsChars needle ds

/-- Python `needle in hay` on strings. -/
def pyContains (hay needle : String) : Bool := containsChars needle.data hay.data

/-- Stable insertion of `x` into a list sorted ascending by the strict
comparison `lt`: `x` goes before the first element not strictly below it. -/
def insertLt {α : Type} (lt : α → α → Bool) (x : α) : List α → List α
  | [] => [x]
  | y :: ys => if lt y x then y :: insertLt lt x ys else x :: y :: ys

/-- Stable ascending sort by the strict comparison `lt`; equal-keyed elements
keep their input order, as Python's stable `list.sort` guarantees. -/
def stableSortBy {α : Type} (lt : α → α → Bool) : List α → List α
  | [] => []
  | x :: xs => insertLt lt x (stableSortBy lt xs)

/-- The document record fields read by the inventory filter/sort code. -/
structure DocRecord where
  id : String
  display_name : String
  state : String
  size_bytes : Int
  create_time : String
deriving DecidableEq

/-- The filter stage: exact state match when the state filter is not `"All"`,
then case-insensitive substring match on the display name when the search term
is truthy. -/
def apply_inventory_filters (docs : List DocRecord)
    (state_filter search_term : String) : List DocRecord :=
  let fs := if state_filter == "All" then docs
    else docs.filter (fun d => d.state == state_filter)
  if search_term == "" then fs
  else fs.filter (fun d => pyContains (pyLower d.display_name) (pyLower search_term))

/-- The sort stage: Python's stable `list.sort` keyed per the selected option
(`reverse=True` becomes the flipped strict comparison, which preserves the
original order of equal keys exactly as `reverse=True` does). -/
def apply_inventory_sort (docs : List DocRecord) (sort_by : String) :
    List DocRecord :=
  if sort_by == "Upload Time (Newest)" then
    stableSortBy (fun a b => pyStrLt b.create_time a.create_time) docs
  else if sort_by == "Upload Time (Oldest)" then
    stableSortBy (fun a b => pyStrLt a.create_time b.create_time) docs
  else if sort_by == "Name" then
    stableSortBy (fun a b => pyStrLt a.display_name b.display_name) docs
  else if sort_by == "Size" then
    stableSortBy (fun a b => decide (b.size_bytes < a.size_bytes)) docs
  else docs

/-- The filtered, sorted document listing rendered by
`render_document_inventory` and `render_store_files_view`. -/
def render_document_inventory (docs : List DocRecord)
    (state_filter sort_by search_term : String) : List DocRecord :=
  apply_inventory_sort (apply_inventory_filters docs state_filter search_term) sort_by

theorem charListLt_asymm : ∀ a b, charListLt a b = true → charListLt b a = false := by
  intro a
  induction a with
  | nil =>
    intro b _
    cases b <;> rfl
  | cons c cs ih =>
    intro b h
    cases b with
    | nil => simp [charListLt] at h
    | cons d ds =>
      rw [Bool.eq_false_iff]
      intro hcon
      simp only [charListLt, Bool.or_eq_true, Bool.and_eq_true, decide_eq_true_eq] at h hcon
      rcases h with h | ⟨hEq, hcs⟩
      · rcases hcon with hc | ⟨hEq2, hds⟩
        · omega
        · omega
      · rcases hcon with hc | ⟨hEq2, hds⟩
        · omega
        · have hfalse := ih ds hcs
          rw [hfalse] at hds
          exact Bool.false_ne_true hds

theorem charListLt_negtrans :
    ∀ a b c, charListLt b a = false → charListLt c b = false → charListLt c a = false := by
  intro a
  induction a with
  | nil =>
    intro b c _ _
    cases c <;> rfl
  | cons x xs ih =>
    intro b c h1 h2
    cases c with
    | nil =>
      cases b with
      | nil => simp [charListLt] at h1
      | cons y ys => simp [charListLt] at h2
    | cons z zs =>
      cases b with
      | nil => simp [charListLt] at h1
      | cons y ys =>
        rw [Bool.eq_false_iff]
        intro hcon
        simp only [charListLt, Bool.or_eq_false_iff, Bool.and_eq_false_iff,
          decide_eq_false_iff_not] at h1 h2
        simp only [charListLt, Bool.or_eq_true, Bool.and_eq_true, decide_eq_true_eq] at hcon
        obtain ⟨h1a, h1b⟩ := h1
        obtain ⟨h2a, h2b⟩ := h2
        rcases hcon with hzx | ⟨hzxEq, hzs⟩
        · omega
        · have hyx : y.toNat = x.toNat := by omega
          have hzy : z.toNat = y.toNat := by omega
          rcases h1b with h | hysxs
          · exact h hyx
          · rcases h2b with h | hzsys
            · exact h hzy
            · have hfalse := ih ys zs hysxs hzsys
              rw [hfalse] at hzs
              exact Bool.false_ne_true hzs

theorem pyStrLt_asymm (a b : String) : pyStrLt a b = true → pyStrLt b a = false :=
  charListLt_asymm a.data b.data

theorem pyStrLt_negtrans (a b c : String) :
    pyStrLt b a = false → pyStrLt c b = false → pyStrLt c a = false :=
  charListLt_negtrans a.data b.data c.data

theorem insertLt_perm {α : Type} (lt : α → α → Bool) (x : α) :
    ∀ l : List α, (insertLt lt x l).Perm (x :: l) := by
  intro l
  induction l with
  | nil => exact List.Perm.refl _
  | cons y ys ih =>
    cases h : lt y x with
    | true =>
      simp only [insertLt, h, if_true]
      exact (ih.cons y).trans (List.Perm.swap x y ys)
    | false =>
      simp only [insertLt, h, if_false]
      exact List.Perm.refl _

theorem stableSortBy_perm {α : Type} (lt : α → α → Bool) :
    ∀ l : List α, (stableSortBy lt l).Perm l := by
  intro l
  induction l with
  | nil => exact List.Perm.refl _
  | cons x xs ih =>
    exact (insertLt_perm lt x (stableSortBy lt xs)).trans (ih.cons x)

theorem insertLt_pairwise {α : Type} (lt : α → α → Bool)
    (hneg : ∀ a b c, lt b a = false → lt c b = false → lt c a = false)
    (hasym : ∀ a b, lt a b = true → lt b a = false) (x : α) :
    ∀ l : List α, l.Pairwise (fun a b => lt b a = false) →
      (insertLt lt x l).Pairwise (fun a b => lt b a = false) := by
  intro l
  induction l with
  | nil =>
    intro _
    exact List.pairwise_singleton _ x
  | cons y ys ih =>
    intro hp
    obtain ⟨hy, hys⟩ := List.pairwise_cons.mp hp
    cases h : lt y x with
    | true =>
      simp only [insertLt, h, if_true]
      refine List.pairwise_cons.mpr ⟨?_, ih hys⟩
      intro z hz
      have hz' := (insertLt_perm lt x ys).mem_iff.mp hz
      rcases List.mem_cons.mp hz' with rfl | hmem
      · exact hasym y z h
      · exact hy z hmem
    | false =>
      simp only [insertLt, h, if_false]
      refine List.pairwise_cons.mpr ⟨?_, hp⟩
      intro z hz
      rcases List.mem_cons.mp hz with rfl | hmem
      · exact h
      · exact hneg x y z h (hy z hmem)

theorem stableSortBy_pairwise {α : Type} (lt : α → α → Bool)
    (hneg : ∀ a b c, lt b a = false → lt c b = false → lt c a = false)
    (hasym : ∀ a b, lt a b = true → lt b a = false) :
    ∀ l : List α, (stableSortBy lt l).Pairwise (fun a b => lt b a = false) := by
  intro l
  induction l with
  | nil => exact List.Pairwise.nil
  | cons x xs ih => exact insertLt_pairwise lt hneg hasym x _ ih

/-- Three documents named Zeta, alpha, Beta, for the C6 sort scenario. -/
def c6Docs : List DocRecord :=
  [⟨"d1", "Zeta", "STATE_ACTIVE", 10, "2024-01-01 00:00:00"⟩,
    ⟨"d2", "alpha", "STATE_ACTIVE", 20, "2024-01-02 00:00:00"⟩,
    ⟨"d3", "Beta", "STATE_ACTIVE", 30, "2024-01-03 00:00:00"⟩]

/-- C6 counterexample: sorting documents named Zeta, alpha, Beta by the Name
key yields Beta, Zeta, alpha — not the claimed case-insensitive order alpha,
Beta, Zeta, because Python compares display names case-sensitively by code
point (all uppercase letters sort before all lowercase letters). -/
theorem name_sort_not_case_insensitive :
    (render_document_inventory c6Docs "All" "Name" "").map DocRecord.display_name =
      ["Beta", "Zeta", "alpha"] ∧
    ¬ (render_document_inventory c6Docs "All" "Name" "").map DocRecord.display_name =
      ["alpha", "Beta", "Zeta"] :=
  ⟨by decide, by decide⟩

/-- C6 (amended): the Name sort key orders display names case-sensitively by
code point: it returns a permutation of the filtered documents that is
pairwise non-descending in raw code-point order, and on documents named Zeta,
alpha, Beta it yields Beta, Zeta, alpha. -/
theorem name_sort_case_sensitive :
    (∀ docs : List DocRecord,
      (apply_inventory_sort docs "Name").Perm docs ∧
      (apply_inventory_sort docs "Name").Pairwise
        (fun a b => pyStrLt b.display_name a.display_name = false)) ∧
    (render_document_inventory c6Docs "All" "Name" "").map DocRecord.display_name =
      ["Beta", "Zeta", "alpha"] := by
  have hname : ∀ docs : List DocRecord, apply_inventory_sort docs "Name" =
      stableSortBy (fun a b => pyStrLt a.display_name b.display_name) docs :=
    fun docs => rfl
  refine ⟨fun docs => ⟨?_, ?_⟩, by decide⟩
  · rw [hname]
    exact stableSortBy_perm _ docs
  · rw [hname]
    exact stableSortBy_pairwise _
      (fun a b c h1 h2 =>
        pyStrLt_negtrans a.display_name b.display_name c.display_name h1 h2)
      (fun a b h => pyStrLt_asymm a.display_name b.display_name h) docs

/-! ## Store resolution: `get_or_create_file_search_store` (app.py lines 61-91) -/

/-- A remote store as seen by the listing call: resource name and display name. -/
structure StoreInfo where
  name : String
  display_name : String
deriving DecidableEq

/-- Environment of one `get_or_create_file_search_store` call: the
`FILE_SEARCH_STORE_NAME` environment value, and the outcomes of the remote
list and create calls. -/
structure StoreEnv where
  envStoreName : Option String
  listOutcome : PyResult (List StoreInfo)
  createOutcome : PyResult String

/-- Streamlit session state, as read by the store resolution code: the cached
`store_name` key (absent when the key is not set). -/
structure SessionState where
  store_name : Option String
deriving DecidableEq

/-- Result of one resolution call: the returned identifier (`none` models
`st.stop()` after a failed create), the updated session state, and how many
remote create calls were issued. -/
structure ResolveRun where
  result : Option String
  state : SessionState
  createCalls : Nat
deriving DecidableEq

/-- The attempt to find an existing store by display name: the first listed
store whose display name matches, and `none` both when no store matches and
when the listing call raised (which only warns and falls through). -/
def storeLookup (env : StoreEnv) (display_name : String) : Option StoreInfo :=
  match env.listOutcome with
  | PyResult.ok stores => stores.find? (fun st => st.display_name == display_name)
  | PyResult.exc _ => none

/-- `get_or_create_file_search_store(client, display_name)`: return the
configured store name if truthy; else the session-cached name if present; else
the first listed store whose display name matches (caching it); else create a
new store (caching it), stopping the app if the create call raises. -/
def get_or_create_file_search_store (env : StoreEnv) (display_name : String)
    (s : SessionState) : ResolveRun :=
  if strTruthy env.envStoreName then
    { result := env.envStoreName, state := s, createCalls := 0 }
  else
    match s.store_name with
    | some v => { result := some v, state := s, createCalls := 0 }
    | none =>
      match storeLookup env display_name with
      | some st =>
        { result := some st.name, state := ⟨some st.name⟩, createCalls := 0 }
      | none =>
        match env.createOutcome with
        | PyResult.ok newName =>
          { result := some newName, state := ⟨some newName⟩, createCalls := 1 }
        | PyResult.exc _ => { result := none, state := s, createCalls := 1 }

theorem resolve_env_hit (env : StoreEnv) (dn : String) (s : SessionState)
    (he : strTruthy env.envStoreName = true) :
    get_or_create_file_search_store env dn s =
      { result := env.envStoreName, state := s, createCalls := 0 } := by
  simp [get_or_create_file_search_store, he]

theorem resolve_cache_hit (env : StoreEnv) (dn : String) (s : SessionState) (v : String)
    (he : strTruthy env.envStoreName = false) (hv : s.store_name = some v) :
    get_or_create_file_search_store env dn s =
      { result := some v, state := s, createCalls := 0 } := by
  simp [get_or_create_file_search_store, he, hv]

theorem resolve_caches_result (env : StoreEnv) (dn : String) (s : SessionState) (id : String)
    (he : strTruthy env.envStoreName = false) (hs : s.store_name = none)
    (h1 : (get_or_create_file_search_store env dn s).result = some id) :
    (get_or_create_file_search_store env dn s).state.store_name = some id := by
  unfold get_or_create_file_search_store at h1 ⊢
  rw [he] at h1 ⊢
  simp only [Bool.false_eq_true, if_false] at h1 ⊢
  rw [hs] at h1 ⊢
  cases hf : storeLookup env dn with
  | some st =>
    rw [hf] at h1
    exact h1
  | none =>
    rw [hf] at h1
    cases hc : env.createOutcome with
    | ok newName =>
      rw [hc] at h1
      exact h1
    | exc m =>
      rw [hc] at h1
      exact Option.noConfusion h1
/-- C8: two successive `get_or_create_file_search_store` calls in one session
that starts with no cached store return the same identifier: whatever the
first successful call resolved or created is cached in session state, and the
second call returns it without issuing any remote create call — even if the
remote environment changed in between (only the process-constant configured
store name must agree). -/
theorem resolve_active_store_create_once (env env2 : StoreEnv)
    (dn : String) (s : SessionState) (id : String)
    (henv : env2.envStoreName = env.envStoreName)
    (hs : s.store_name = none)
    (h1 : (get_or_create_file_search_store env dn s).result = some id) :
    (get_or_create_file_search_store env2 dn
        (get_or_create_file_search_store env dn s).state).result = some id ∧
    (get_or_create_file_search_store env2 dn
        (get_or_create_file_search_store env dn s).state).createCalls = 0 := by
  cases he : strTruthy env.envStoreName with
  | true =>
    have he2 : strTruthy env2.envStoreName = true := by rw [henv]; exact he
    rw [resolve_env_hit env dn s he] at h1
    rw [resolve_env_hit env2 dn _ he2, henv]
    exact ⟨h1, rfl⟩
  | false =>
    have he2 : strTruthy env2.envStoreName = false := by rw [henv]; exact he
    have hcache := resolve_caches_result env dn s id he hs h1
    rw [resolve_cache_hit env2 dn _ id he2 hcache]
    exact ⟨rfl, rfl⟩

/-- Environment for the C8 witness: no configured store, an empty remote
listing, and a create call that returns a fresh identifier. -/
def c8Env : StoreEnv := ⟨none, PyResult.ok [], PyResult.ok "fileSearchStores/new1"⟩

/-- C8 witness: in a fresh session, the first call against `c8Env` creates and
returns `fileSearchStores/new1`; the theorem then gives that the second call
returns the same identifier with zero create calls. -/
theorem resolve_active_store_create_once_witness :
    c8Env.envStoreName = c8Env.envStoreName ∧
    (SessionState.mk none).store_name = none ∧
    (get_or_create_file_search_store c8Env "rag-streamlit-store" ⟨none⟩).result =
      some "fileSearchStores/new1" ∧
    (get_or_create_file_search_store c8Env "rag-streamlit-store"
        (get_or_create_file_search_store c8Env "rag-streamlit-store" ⟨none⟩).state).result =
      some "fileSearchStores/new1" ∧
    (get_or_create_file_search_store c8Env "rag-streamlit-store"
        (get_or_create_file_search_store c8Env "rag-streamlit-store" ⟨none⟩).state).createCalls = 0 := by
  have h := resolve_active_store_create_once c8Env c8Env "rag-streamlit-store"
    ⟨none⟩ "fileSearchStores/new1" rfl rfl (by decide)
  exact ⟨rfl, rfl, by decide, h.1, h.2⟩

/-! ## Store statistics: `get_store_stats`, `list_all_stores` (app.py 134-185) -/

/-- A store as returned by the remote service; the document counts and size
may be reported as `None` (modelled `none`). -/
structure RemoteStore where
  name : String
  display_name : String
  active_documents_count : Option Int
  pending_documents_count : Option Int
  failed_documents_count : Option Int
  size_bytes : Option Int
  create_time : String
  update_time : String
deriving DecidableEq

/-- Python `x or 0` on an optional count: `None` becomes `0`. -/
def pyOrZero : Option Int → Int
  | none => 0
  | some n => n

/-- The statistics record `get_store_stats` builds from a fetched store. -/
structure StoreStats where
  name : String
  display_name : String
  active_documents : Int
  pending_documents : Int
  failed_documents : Int
  total_documents : Int
  size_bytes : Int
  create_time : String
  update_time : String
deriving DecidableEq

/-- The per-store record built by `get_store_stats` on its success path. -/
def store_stats_of (store : RemoteStore) : StoreStats :=
  { name := store.name
    display_name := store.display_name
    active_documents := pyOrZero store.active_documents_count
    pending_documents := pyOrZero store.pending_documents_count
    failed_documents := pyOrZero store.failed_documents_count
    total_documents := pyOrZero store.active_documents_count +
      pyOrZero store.pending_documents_count + pyOrZero store.failed_documents_count
    size_bytes := pyOrZero store.size_bytes
    create_time := store.create_time
    update_time := store.update_time }

/-- `get_store_stats(client, store_name)`: the stats record on success, `none`
modelling the empty dict returned when the fetch raises. -/
def get_store_stats (fetchOutcome : PyResult RemoteStore) : Option StoreStats :=
  match fetchOutcome with
  | PyResult.ok store => some (store_stats_of store)
  | PyResult.exc _ => none

/-- The per-store record built inside `list_all_stores` (same fields except
that no `update_time` key is put in the dict). -/
structure StoreListEntry where
  name : String
  display_name : String
  active_documents : Int
  pending_documents : Int
  failed_documents : Int
  total_documents : Int
  size_bytes : Int
  create_time : String
deriving DecidableEq

/-- The entry `list_all_stores` appends for one listed store. -/
def store_list_entry_of (store : RemoteStore) : StoreListEntry :=
  { name := store.name
    display_name := store.display_name
    active_documents := pyOrZero store.active_documents_count
    pending_documents := pyOrZero store.pending_documents_count
    failed_documents := pyOrZero store.failed_documents_count
    total_documents := pyOrZero store.active_documents_count +
      pyOrZero store.pending_documents_count + pyOrZero store.failed_documents_count
    size_bytes := pyOrZero store.size_bytes
    create_time := store.create_time }

/-- `list_all_stores(client)`: one entry per listed store, or the empty list
when the listing call raises. -/
def list_all_stores (listOutcome : PyResult (List RemoteStore)) :
    List StoreListEntry :=
  match listOutcome with
  | PyResult.ok stores => stores.map store_list_entry_of
  | PyResult.exc _ => []

/-- C9: every stats record produced by `get_store_stats` and every entry
produced by `list_all_stores` reports a total document count equal to the sum
of its active, pending and failed counts, and each of those counts is an
actual (non-null) number equal to the remote value with `None` defaulted to
`0`. -/
theorem store_counts_invariant :
    (∀ outcome stats, get_store_stats outcome = some stats →
      stats.total_documents =
        stats.active_documents + stats.pending_documents + stats.failed_documents) ∧
    (∀ store : RemoteStore,
      (store_stats_of store).active_documents = (store.active_documents_count.getD 0) ∧
      (store_stats_of store).pending_documents = (store.pending_documents_count.getD 0) ∧
      (store_stats_of store).failed_documents = (store.failed_documents_count.getD 0)) ∧
    (∀ outcome, ∀ entry ∈ list_all_stores outcome,
      entry.total_documents =
        entry.active_documents + entry.pending_documents + entry.failed_documents) := by
  refine ⟨?_, ?_, ?_⟩
  · intro outcome stats h
    cases outcome with
    | ok store =>
      simp only [get_store_stats, Option.some.injEq] at h
      rw [← h]
      rfl
    | exc m => exact Option.noConfusion h
  · intro store
    refine ⟨?_, ?_, ?_⟩ <;> cases hc : store.active_documents_count <;>
      cases hp : store.pending_documents_count <;>
      cases hf : store.failed_documents_count <;>
      simp [store_stats_of, pyOrZero, hc, hp, hf]
  · intro outcome entry hmem
    cases outcome with
    | ok stores =>
      simp only [list_all_stores, List.mem_map] at hmem
      obtain ⟨store, _, hst⟩ := hmem
      rw [← hst]
      rfl
    | exc m => simp [list_all_stores] at hmem

/-- A concrete remote store for the C9 witness: the pending count is reported
as `None` by the service. -/
def c9Store : RemoteStore :=
  ⟨"fileSearchStores/s1", "docs", some 4, none, some 1, some 2048, "t0", "t1"⟩

/-- C9 witness: the invariant theorem applied to a concrete fetched store with
a `None` pending count (so `4 + 0 + 1 = 5`) and to a one-store listing. -/
theorem store_counts_invariant_witness :
    get_store_stats (PyResult.ok c9Store) = some (store_stats_of c9Store) ∧
    (store_stats_of c9Store).total_documents =
      (store_stats_of c9Store).active_documents +
        (store_stats_of c9Store).pending_documents +
        (store_stats_of c9Store).failed_documents ∧
    store_list_entry_of c9Store ∈ list_all_stores (PyResult.ok [c9Store]) ∧
    (store_list_entry_of c9Store).total_documents =
      (store_list_entry_of c9Store).active_documents +
        (store_list_entry_of c9Store).pending_documents +
        (store_list_entry_of c9Store).failed_documents := by
  refine ⟨rfl, ?_, ?_, ?_⟩
  · exact store_counts_invariant.1 (PyResult.ok c9Store) (store_stats_of c9Store) rfl
  · simp [list_all_stores]
  · exact store_counts_invariant.2.2 (PyResult.ok [c9Store]) (store_list_entry_of c9Store)
      (by simp [list_all_stores])

/-! ## Document upload: `upload_document` (app.py 210-261, backend/main.py 113-142) -/

/-- A single quote character, used by Python `str()` on lists of strings. -/
def pySQuote : String := String.singleton (Char.ofNat 39)

/-- Python `repr` of a plain string, as it appears inside `str(list)`. -/
def pyReprStr (s : String) : String := pySQuote ++ s ++ pySQuote

/-- A metadata value passed to `upload_document`: a string, a number, or a
list of strings. -/
inductive PyValue where
  | pystr (s : String)
  | pyint (n : Int)
  | pylist (xs : List String)
deriving DecidableEq

/-- Python `str(v)` on a metadata value. -/
def pyStrOf : PyValue → String
  | PyValue.pystr s => s
  | PyValue.pyint n => toString n
  | PyValue.pylist xs => "[" ++ String.intercalate ", " (xs.map pyReprStr) ++ "]"

/-- The `white_space_config` chunking dict sent to the remote service. -/
structure WhiteSpaceConfig where
  max_tokens_per_chunk : Int
  max_overlap_tokens : Int
deriving DecidableEq

/-- One `custom_metadata` record sent to the remote service: always a
`string_value`, never a numeric or string-list field. -/
structure CustomMetadataEntry where
  key : String
  string_value : String
deriving DecidableEq

/-- The upload config dict `upload_document` builds. -/
structure UploadConfig where
  chunking_white_space : WhiteSpaceConfig
  display_name : Option String
  custom_metadata : Option (List CustomMetadataEntry)
deriving DecidableEq

/-- Outcomes of the two remote interactions inside `upload_document`: the
`upload_to_file_search_store` call and the subsequent `wait_for_operation`
(whose own re-fetches may raise, caught by the outer `except`). -/
structure UploadEnv where
  uploadOutcome : PyResult Unit
  waitOutcome : PyResult Bool
deriving DecidableEq

/-- The remote upload call as issued: target store and config. -/
structure RemoteUploadCall where
  file_search_store_name : String
  cfg : UploadConfig
deriving DecidableEq

/-- Observable outcome of one `upload_document` run: the returned boolean, the
remote upload calls issued, and whether the staged temporary file still exists
after the function returns. -/
structure UploadRun where
  result : Bool
  calls : List RemoteUploadCall
  tempFileRemains : Bool
deriving DecidableEq

/-- `upload_document(client, store_name, uploaded_file, display_name,
metadata, chunk_size, chunk_overlap)`: stage the bytes in a temporary file,
build the config (display name only if truthy, `custom_metadata` only if the
mapping is truthy, each value passed through `str`), issue the remote upload,
then wait; any exception is caught and returns `False`; the `finally` block
always removes the temporary file. -/
def upload_document (env : UploadEnv) (store_name : String)
    (display_name : Option String) (metadata : Option (List (String × PyValue)))
    (chunk_size chunk_overlap : Int) : UploadRun :=
  let cfg : UploadConfig :=
    { chunking_white_space := ⟨chunk_size, chunk_overlap⟩
      display_name := if strTruthy display_name then display_name else none
      custom_metadata :=
        match metadata with
        | some entries =>
          if entries.isEmpty then none
          else some (entries.map (fun kv => ⟨kv.1, pyStrOf kv.2⟩))
        | none => none }
  match env.uploadOutcome with
  | PyResult.exc _ =>
    { result := false, calls := [⟨store_name, cfg⟩], tempFileRemains := false }
  | PyResult.ok _ =>
    match env.waitOutcome with
    | PyResult.ok b =>
      { result := b, calls := [⟨store_name, cfg⟩], tempFileRemains := false }
    | PyResult.exc _ =>
      { result := false, calls := [⟨store_name, cfg⟩], tempFileRemains := false }

/-- Observable outcome of the backend `/upload` endpoint: the HTTP response
(`exc` models the raised `HTTPException`) and whether the staged temporary
file still exists afterwards. -/
structure BackendUploadRun where
  response : PyResult String
  tempFileRemains : Bool
deriving DecidableEq

/-- Backend `upload_document(file)`: write the bytes to `/tmp/<filename>`, call
`rag.import_files`, then `os.remove` the temporary file — but the remove is
only on the success path, not in a `finally` block, so an import exception
leaves the file behind. -/
def backend_upload_document (importOutcome : PyResult Int) : BackendUploadRun :=
  match importOutcome with
  | PyResult.ok count =>
    { response := PyResult.ok ("Imported " ++ toString count ++ " files.")
      tempFileRemains := false }
  | PyResult.exc e => { response := PyResult.exc e, tempFileRemains := true }

/-- Environment in which both remote upload steps succeed. -/
def envUploadOk : UploadEnv := ⟨PyResult.ok (), PyResult.ok true⟩

/-- C2 counterexample: calling `upload_document` with
`chunk_overlap = chunk_size = 100` does not fail with any `InvalidArgument`
and does make the remote upload call — the function performs no validation of
the chunking parameters before calling the remote service. -/
theorem upload_overlap_not_rejected :
    (upload_document envUploadOk "fileSearchStores/s1" none none 100 100).result = true ∧
    (upload_document envUploadOk "fileSearchStores/s1" none none 100 100).calls ≠ [] :=
  ⟨by decide, by decide⟩

/-- C2 (amended): `upload_document` performs no validation of its chunking
parameters: for every call with `chunk_overlap_tokens >= chunk_tokens` it
still issues exactly one remote upload call, with both values passed through
unchanged (no `InvalidArgument`, no clamping). -/
theorem upload_no_overlap_validation (env : UploadEnv) (store_name : String)
    (display_name : Option String) (metadata : Option (List (String × PyValue)))
    (chunk_size chunk_overlap : Int) (hbad : chunk_size ≤ chunk_overlap) :
    (upload_document env store_name display_name metadata
        chunk_size chunk_overlap).calls.map
        (fun c => (c.file_search_store_name, c.cfg.chunking_white_space)) =
      [(store_name, ⟨chunk_size, chunk_overlap⟩)] := by
  unfold upload_document
  cases h1 : env.uploadOutcome with
  | exc m => rfl
  | ok u =>
    cases h2 : env.waitOutcome with
    | ok b => rfl
    | exc m => rfl

/-- C2 witness: the no-validation theorem applied with
`chunk_size = chunk_overlap = 100` in a succeeding environment. -/
theorem upload_no_overlap_validation_witness :
    (100 : Int) ≤ 100 ∧
    (upload_document envUploadOk "fileSearchStores/s1" none none 100 100).calls.map
        (fun c => (c.file_search_store_name, c.cfg.chunking_white_space)) =
      [("fileSearchStores/s1", ⟨100, 100⟩)] :=
  ⟨by decide,
    upload_no_overlap_validation envUploadOk "fileSearchStores/s1" none none
      100 100 (by decide)⟩

/-- C7 counterexample: in the backend `/upload` endpoint, when the remote
ingestion call raises, the staged temporary file is not removed — it persists
after the operation returns. -/
theorem backend_upload_temp_leak :
    (backend_upload_document (PyResult.exc "import failed")).tempFileRemains = true :=
  by decide

/-- C7 (amended): the Streamlit `upload_document` removes its temporary file on
every exit path (success, remote failure, timeout, or an exception from the
remote upload call itself — the removal is in a `finally` block); the backend
`/upload` endpoint removes its temporary file only on the success path, and
leaves it behind when the remote import call raises. -/
theorem upload_temp_file_scoped :
    (∀ (env : UploadEnv) (store_name : String) (display_name : Option String)
        (metadata : Option (List (String × PyValue)))
        (chunk_size chunk_overlap : Int),
      (upload_document env store_name display_name metadata
          chunk_size chunk_overlap).tempFileRemains = false) ∧
    (∀ count : Int,
      (backend_upload_document (PyResult.ok count)).tempFileRemains = false) ∧
    (backend_upload_document (PyResult.exc "import failed")).tempFileRemains = true := by
  refine ⟨?_, fun count => rfl, rfl⟩
  intro env store_name dn md cs co
  unfold upload_document
  cases h1 : env.uploadOutcome with
  | exc m => rfl
  | ok u =>
    cases h2 : env.waitOutcome with
    | ok b => rfl
    | exc m => rfl

/-- C10: for every non-empty custom-metadata mapping, the remote upload call
carries a `custom_metadata` list with exactly one `string_value` record per
mapping entry, in mapping order, the value being `str(v)` — numeric and
string-list values are coerced to their Python string rendering, never sent as
numbers or string lists (the record type has only a `string_value` field). -/
theorem upload_metadata_stringified (env : UploadEnv) (store_name : String)
    (display_name : Option String) (md : List (String × PyValue))
    (chunk_size chunk_overlap : Int) (hne : md ≠ []) :
    (upload_document env store_name display_name (some md)
        chunk_size chunk_overlap).calls.map (fun c => c.cfg.custom_metadata) =
      [some (md.map (fun kv => ⟨kv.1, pyStrOf kv.2⟩))] := by
  have hie : md.isEmpty = false := by
    cases md with
    | nil => exact absurd rfl hne
    | cons a l => rfl
  unfold upload_document
  simp only [hie, Bool.false_eq_true, if_false]
  cases h1 : env.uploadOutcome with
  | exc m => rfl
  | ok u =>
    cases h2 : env.waitOutcome with
    | ok b => rfl
    | exc m => rfl

/-- The metadata mapping used by the C10 witness: a string, a number, and a
list of strings. -/
def c10Md : List (String × PyValue) :=
  [("author", PyValue.pystr "sam"), ("year", PyValue.pyint 2024),
    ("tags", PyValue.pylist ["a", "b"])]

/-- C10 witness: the stringification theorem applied to a concrete mapping —
the number 2024 is sent as the string `2024` and the list is sent as its
Python rendering, both in `string_value` fields, in mapping order. -/
theorem upload_metadata_stringified_witness :
    c10Md ≠ [] ∧
    (upload_document envUploadOk "fileSearchStores/s1" none (some c10Md)
        400 40).calls.map (fun c => c.cfg.custom_metadata) =
      [some (c10Md.map (fun kv => ⟨kv.1, pyStrOf kv.2⟩))] ∧
    c10Md.map (fun kv => (⟨kv.1, pyStrOf kv.2⟩ : CustomMetadataEntry)) =
      [⟨"author", "sam"⟩, ⟨"year", "2024"⟩,
        ⟨"tags", "[" ++ pyReprStr "a" ++ ", " ++ pyReprStr "b" ++ "]"⟩] :=
  ⟨by decide,
    upload_metadata_stringified envUploadOk "fileSearchStores/s1" none c10Md
      400 40 (by decide),
    by decide⟩
